import Mathlib

/-!
Shallow embedding of the chess-ranking repository (src/ranking.py and
src/chess_elo.py) and proofs about its rating-update engine.

Conventions of the embedding:
- Python floats are modelled as real numbers.
- Rating and deviation histories (Python lists `elo`, `rdev` with `[-1]`
  access and `append`) are modelled as Lean lists with the MOST RECENT
  entry FIRST: Python `xs[-1]` becomes `xs.headD 0` and `xs.append(v)`
  becomes `v :: xs`.
- A player's registered games (`self.games`, appended in play order and
  inspected only through each game's date) are modelled as the list of
  their dates, most recent LAST, matching Python append order.
- Dates are natural numbers; the module-level `__dates__` list is passed
  explicitly as a `List ℕ`.
- The module-level mode flag `GLICKO` is passed explicitly as a `Bool`.
-/

namespace ChessRanking

/-! Constants of src/ranking.py (lines 17-38). -/

def STARTING_ELO : ℝ := 1500

def DEFAULT_K_FACTOR : ℝ := 20

def ELO_DIFF : ℝ := 400

def STARTING_RD : ℝ := 350

def APPROX_RD : ℝ := 60

def UNCERT_TIME : ℝ := 10

def MIN_RD : ℝ := 50

def PENALTY : ℝ := 0

def EXP_PENALTY : ℝ := 0.2

def MAX_PENALTY : ℝ := 20

noncomputable def PENALTY_CUTOFF : ℝ := STARTING_ELO * 0.75

def BONUS : ℝ := 0

noncomputable def GLICKO_C : ℝ :=
  Real.sqrt ((STARTING_RD ^ 2 - APPROX_RD ^ 2) / UNCERT_TIME)

noncomputable def GLICKO_Q : ℝ := Real.log 10 / ELO_DIFF

/-- State of a `Player` of src/ranking.py: rating history `elo`,
deviation history `rdev` (most recent first, see module docstring),
registered game dates `games` (most recent last), the two-slot staging
buffer `buffer` (Python `[elo, rdev]`, initialised to `[None, None]` in
the source; the engine always stages before committing, so the initial
contents are never read — modelled as `(0, 0)`), and `k_factor`. -/
structure PState where
  elo : List ℝ
  rdev : List ℝ
  games : List ℕ
  buffer : ℝ × ℝ
  kFactor : ℝ

/-- Player.__init__ with the default arguments (ranking.py lines 174-181). -/
def player_init : PState :=
  { elo := [STARTING_ELO], rdev := [STARTING_RD], games := [],
    buffer := (0, 0), kFactor := DEFAULT_K_FACTOR }

/-- Python `list.index`, total on the lists the engine builds
(every date queried occurs in `__dates__`). -/
def pyIndex (dates : List ℕ) (d : ℕ) : ℕ := dates.indexOf d

/-- Loop body of `periods` (ranking.py lines 163-169): starting from
`games[-1].date`, every game whose date-index is ≥ the index of `now`
overwrites the accumulator with `games[i-1].date` (Python `games[-1]`
when `i = 0`). -/
def lastGameDate (dates : List ℕ) (now : ℕ) (games : List ℕ) : ℕ :=
  (List.range games.length).foldl
    (fun acc i =>
      if pyIndex dates now ≤ pyIndex dates (games.getD i 0) then
        (if i = 0 then games.getLastD 0 else games.getD (i - 1) 0)
      else acc)
    (games.getLastD 0)

/-- Function `periods` of ranking.py: number of period slots between
`now` and the last game date before `now`. -/
def periodsFn (dates : List ℕ) (now : ℕ) (games : List ℕ) : ℤ :=
  (pyIndex dates now : ℤ) - (pyIndex dates (lastGameDate dates now games) : ℤ)

/-- Player.g_weight (ranking.py lines 191-199). -/
noncomputable def g_weight (glicko : Bool) (rdevLast : ℝ) : ℝ :=
  if glicko then
    (Real.sqrt (1 + 3 * GLICKO_Q ^ 2 * rdevLast ^ 2 / Real.pi ^ 2))⁻¹
  else 1

/-- Player.expected (ranking.py lines 184-189): expected score of a
player with latest rating `selfElo` against an opponent with latest
rating `otherElo` and latest deviation `otherRdev`. -/
noncomputable def expected (glicko : Bool) (selfElo otherElo otherRdev : ℝ) : ℝ :=
  1 / (1 + (10 : ℝ) ^ (g_weight glicko otherRdev * (otherElo - selfElo) / ELO_DIFF))

/-- Data `calculate_period` reads from one of today's games: the
opponent's committed latest rating and deviation and the win value
`s ∈ {1, 0.5, 0}` from `game.win_value(self)`. -/
structure OppGame where
  oppElo : ℝ
  oppRdev : ℝ
  winValue : ℝ

/-- One summand of `d_comps` (ranking.py lines 235-237). -/
noncomputable def dComp (glicko : Bool) (selfElo : ℝ) (g : OppGame) : ℝ :=
  g_weight glicko g.oppRdev ^ 2
    * expected glicko selfElo g.oppElo g.oppRdev
    * (1 - expected glicko selfElo g.oppElo g.oppRdev)

/-- One summand of `r_comps` (ranking.py line 238). -/
noncomputable def rComp (glicko : Bool) (selfElo : ℝ) (g : OppGame) : ℝ :=
  g_weight glicko g.oppRdev * (g.winValue - expected glicko selfElo g.oppElo g.oppRdev)

/-- New deviation in the idle branch (ranking.py lines 215-217):
`min(np.sqrt(self.rdev[-1] ** 2 + GLICKO_C * non_played_periods), STARTING_RD)`.
Note the source multiplies by `GLICKO_C` itself, not its square. -/
noncomputable def idle_rdev (dev p : ℝ) : ℝ :=
  min (Real.sqrt (dev ^ 2 + GLICKO_C * p)) STARTING_RD

/-- New rating in the idle branch (ranking.py lines 222-226), with the
penalty constants as parameters (the source reads the module constants
`PENALTY`, `EXP_PENALTY`, `PENALTY_CUTOFF`; §6 of the spec treats them
as the configuration surface). -/
noncomputable def idle_elo (elo rate growth cutoff p : ℝ) : ℝ :=
  elo - max (elo - cutoff) 0 * rate * Real.exp (growth * (p - 1))

/-- New deviation in the played branch, Glicko mode
(ranking.py lines 239-244), as a function of the current deviation and
`sum(d_comps)`: `d2_weight = (GLICKO_Q ** 2 * sum(d_comps)) ** -1` and
`max(np.sqrt(1 / rdev ** 2 + 1 / d2_weight) ** -1, MIN_RD)`. -/
noncomputable def played_rdev (dev sumD : ℝ) : ℝ :=
  max (Real.sqrt (1 / dev ^ 2 + 1 / (GLICKO_Q ^ 2 * sumD)⁻¹))⁻¹ MIN_RD

/-- Player.calculate_period (ranking.py lines 206-252). `dates` is the
module list `__dates__`, `now` the current period date, and `today` the
opponent data of `[game for game in self.games if game.date == now]`.
Only the staging buffer is written; the three branches follow the source:
no games ever, last game not today, or games today. -/
noncomputable def calculate_period (glicko : Bool) (dates : List ℕ) (now : ℕ)
    (today : List OppGame) (s : PState) : PState :=
  if s.games = [] then
    { s with buffer :=
        (s.elo.headD 0 - max (s.elo.headD 0 - PENALTY_CUTOFF) 0 * PENALTY,
         s.rdev.headD 0) }
  else if s.games.getLastD 0 ≠ now then
    let p : ℝ := (periodsFn dates now s.games : ℝ)
    { s with buffer :=
        (idle_elo (s.elo.headD 0) PENALTY EXP_PENALTY PENALTY_CUTOFF p,
         if glicko then idle_rdev (s.rdev.headD 0) p else 0) }
  else
    let sumD := (today.map (dComp glicko (s.elo.headD 0))).sum
    let sumR := (today.map (rComp glicko (s.elo.headD 0))).sum
    if glicko then
      let newRdev := played_rdev (s.rdev.headD 0) sumD
      { s with buffer :=
          (s.elo.headD 0 + GLICKO_Q * newRdev ^ 2 * sumR + BONUS, newRdev) }
    else
      { s with buffer := (s.elo.headD 0 + sumR * s.kFactor, 0) }

/-- Player.apply_period (ranking.py lines 261-264): append the staged
pair to the two histories (most recent first in this embedding). -/
def apply_period (s : PState) : PState :=
  { s with elo := s.buffer.1 :: s.elo, rdev := s.buffer.2 :: s.rdev }

/-- Player.add_game (ranking.py lines 201-204): append the game only if
it is not already registered. Games are identified by an id `g : ℕ`
(Python compares by object identity). -/
def add_game (g : ℕ) (games : List ℕ) : List ℕ :=
  if g ∈ games then games else games ++ [g]

/-- The state Game.play of ranking.py (lines 305-308) touches: the
game's own `played` flag (set to `False` in `__init__`, line 303, and
never written afterwards) and the two participants' registered game
lists. -/
structure PlayEnv where
  played : Bool
  whiteGames : List ℕ
  blackGames : List ℕ

/-- Game.play of ranking.py (lines 305-308): registers the game (id
`gid`) with black then white via `add_game`; the `played` flag is not
read or written. -/
def ranking_play (gid : ℕ) (e : PlayEnv) : PlayEnv :=
  { e with blackGames := add_game gid e.blackGames,
           whiteGames := add_game gid e.whiteGames }

/-! Embedding of src/chess_elo.py: the per-game classical engine. -/

/-- State a chess_elo.py Game.play call reads and writes: the game's
`played` flag and `winner_id`, and each participant's current `elo` and
`k_factor` (Player.addelo also appends to `elohist`; the histories are
determined by the sequence of elo values and are not modelled
separately). -/
structure EGame where
  played : Bool
  winnerId : ℝ
  whiteElo : ℝ
  blackElo : ℝ
  whiteK : ℝ
  blackK : ℝ

/-- Player.expected of chess_elo.py (lines 83-86). -/
noncomputable def expectedE (selfElo otherElo : ℝ) : ℝ :=
  1 / (1 + (10 : ℝ) ^ ((otherElo - selfElo) / 400))

/-- Game.play of chess_elo.py (lines 122-162): a no-op (with an
"already played" diagnostic) when `played` is set; otherwise the branch
on `winner_id` applies `±k·diff_elo` to the two players and sets
`played`. -/
noncomputable def eplay (g : EGame) : EGame :=
  if g.played then g
  else if g.winnerId = 0 then
    let d := 1 - expectedE g.whiteElo g.blackElo
    { g with whiteElo := g.whiteElo + g.whiteK * d,
             blackElo := g.blackElo + g.blackK * (-d),
             played := true }
  else if g.winnerId = 1 then
    let d := 1 - expectedE g.blackElo g.whiteElo
    { g with blackElo := g.blackElo + g.blackK * d,
             whiteElo := g.whiteElo + g.whiteK * (-d),
             played := true }
  else
    let d := 0.5 - expectedE g.whiteElo g.blackElo
    { g with whiteElo := g.whiteElo + g.whiteK * d,
             blackElo := g.blackElo + g.blackK * (-d),
             played := true }

/-! Embedding of the League lookup and game construction of
src/ranking.py, for the unknown-player-id behaviour. -/

/-- Identity of a registered player as League.get_player sees it. -/
structure LPlayer where
  name : String
  fullname : String
deriving DecidableEq

/-- League.get_player (ranking.py lines 346-351): first player whose
`name` or `fullname` matches; on no match the source prints
"player ... not found" and falls through, returning `None`. -/
def get_player (players : List LPlayer) (nm : String) : Option LPlayer :=
  players.find? (fun p => p.name == nm || p.fullname == nm)

/-- A Game of ranking.py as `__init__` (lines 288-303) builds it from
two name strings: each participant slot holds the `get_player` result,
which is `none` exactly when the id is unregistered. -/
structure RGame where
  white : Option LPlayer
  black : Option LPlayer
  winnerId : ℝ
  date : ℕ
  played : Bool

/-- Game.__init__ (ranking.py lines 288-303) called with name strings. -/
def mkGame (players : List LPlayer) (w b : String) (wid : ℝ) (d : ℕ) : RGame :=
  { white := get_player players w, black := get_player players b,
    winnerId := wid, date := d, played := false }

/-- Game-record lines of read_gamestxt (ranking.py lines 136-142): each
record `(white, black, winner_id, date)` is turned into a Game and
appended to the returned list unconditionally. -/
def read_games (players : List LPlayer) (recs : List (String × String × ℝ × ℕ)) :
    List RGame :=
  recs.map (fun r => mkGame players r.1 r.2.1 r.2.2.1 r.2.2.2)

/-- Outcome of calling Game.play (ranking.py lines 305-308) on a game:
`self.black.add_game(self)` and `self.white.add_game(self)` raise
`AttributeError` when the corresponding slot is `None` (an unregistered
id); otherwise the call succeeds. -/
def rgame_play_result (g : RGame) : Except String Unit :=
  match g.black, g.white with
  | some _, some _ => Except.ok ()
  | _, _ => Except.error "AttributeError"

/-! Helper lemmas shared by the claim theorems. -/

lemma ten_rpow_pos (x : ℝ) : 0 < (10 : ℝ) ^ x :=
  Real.rpow_pos_of_pos (by norm_num) x

lemma expected_pos (glicko : Bool) (se oe odev : ℝ) :
    0 < expected glicko se oe odev := by
  unfold expected
  positivity

lemma expected_lt_one (glicko : Bool) (se oe odev : ℝ) :
    expected glicko se oe odev < 1 := by
  unfold expected
  rw [div_lt_one (by positivity)]
  linarith [ten_rpow_pos (g_weight glicko odev * (oe - se) / ELO_DIFF)]

lemma g_weight_classic (r : ℝ) : g_weight false r = 1 := rfl

lemma expected_classic_symm (a b ra rb : ℝ) :
    expected false a b rb + expected false b a ra = 1 := by
  unfold expected ELO_DIFF
  rw [g_weight_classic, g_weight_classic]
  have hba : (1 : ℝ) * (a - b) / 400 = -(1 * (b - a) / 400) := by ring
  rw [hba, Real.rpow_neg (by norm_num)]
  have ht : (0 : ℝ) < (10 : ℝ) ^ (1 * (b - a) / 400) :=
    ten_rpow_pos (1 * (b - a) / 400)
  field_simp
  ring

lemma add_game_idem (g : ℕ) (l : List ℕ) :
    add_game g (add_game g l) = add_game g l := by
  by_cases h : g ∈ l
  · simp [add_game, h]
  · simp [add_game, h]

lemma ranking_play_idem (gid : ℕ) (e : PlayEnv) :
    ranking_play gid (ranking_play gid e) = ranking_play gid e := by
  simp [ranking_play, add_game_idem]

lemma eplay_played (g : EGame) (h : g.played = false) :
    (eplay g).played = true := by
  unfold eplay
  rw [if_neg (by simp [h])]
  split_ifs <;> rfl

lemma eplay_of_played (g : EGame) (h : g.played = true) : eplay g = g := by
  simp [eplay, h]

/-! Claim theorems. -/

/-- C1: staging (`calculate_period`) writes only the pending buffer — the
rating and deviation histories of a player are unchanged, for every mode,
period date and game configuration — and the subsequent commit
(`apply_period`) appends exactly the staged (rating, deviation) pair to
the two histories, so history queries between staging and commit return
pre-period values and after commit the latest entries are the staged
pair. -/
theorem c1_staging_pure_commit_appends_staged_pair (glicko : Bool)
    (dates : List ℕ) (now : ℕ) (today : List OppGame) (s : PState) :
    ((calculate_period glicko dates now today s).elo = s.elo ∧
     (calculate_period glicko dates now today s).rdev = s.rdev) ∧
    (apply_period (calculate_period glicko dates now today s)).elo
      = (calculate_period glicko dates now today s).buffer.1 :: s.elo ∧
    (apply_period (calculate_period glicko dates now today s)).rdev
      = (calculate_period glicko dates now today s).buffer.2 :: s.rdev := by
  unfold calculate_period apply_period
  split_ifs <;> simp

/-- C10: Game.play of ranking.py is idempotent — any positive number of
calls leaves both participants' game lists (and the rest of the state)
exactly as one call does, because `add_game` inserts only if absent. -/
theorem c10_ranking_play_idempotent (gid : ℕ) (e : PlayEnv) (n : ℕ) :
    (ranking_play gid)^[n + 1] e = ranking_play gid e := by
  induction n with
  | zero => rfl
  | succ m ih =>
    rw [Function.iterate_succ_apply', ih, ranking_play_idem]

/-- C7 counterexample: in ranking.py, the first call of Game.play on a
fresh game does NOT transition the `played` flag to true — the flag
stays false, refuting the claim as stated for this engine's games. -/
theorem c7_counterexample_ranking_play_flag_stays_false :
    (ranking_play 0 { played := false, whiteGames := [], blackGames := [] }).played
      = false := rfl

/-- C7 amended: in chess_elo.py, play transitions `played` from false to
true on its first call and a repeated call is a no-op (diagnostic only),
contributing no second rating update; in ranking.py, play never modifies
the `played` flag, and repeated calls are no-ops on the participants'
game lists, so no game is double-counted in either engine. -/
theorem c7_play_transitions_once_no_double_count (g : EGame) (e : PlayEnv)
    (gid : ℕ) (h : g.played = false) :
    (eplay g).played = true ∧ eplay (eplay g) = eplay g ∧
    ranking_play gid (ranking_play gid e) = ranking_play gid e ∧
    (ranking_play gid e).played = e.played := by
  refine ⟨eplay_played g h, eplay_of_played _ (eplay_played g h), ranking_play_idem gid e, rfl⟩

/-- Roster used to exercise the unknown-player-id path. -/
def demo_players : List LPlayer := [⟨"SF", "Stef"⟩, ⟨"ME", "Moritz"⟩]

/-- C7 witness inputs: a fresh chess_elo game and a fresh ranking play
environment. -/
def demo_egame : EGame :=
  { played := false, winnerId := 0, whiteElo := 1500, blackElo := 1500,
    whiteK := 20, blackK := 20 }

def demo_env : PlayEnv := { played := false, whiteGames := [], blackGames := [] }

/-- C7 witness: the amended statement at a concrete fresh game. -/
theorem c7_play_transitions_once_no_double_count_witness :
    (eplay demo_egame).played = true ∧
    eplay (eplay demo_egame) = eplay demo_egame ∧
    ranking_play 0 (ranking_play 0 demo_env) = ranking_play 0 demo_env ∧
    (ranking_play 0 demo_env).played = demo_env.played :=
  c7_play_transitions_once_no_double_count demo_egame demo_env 0 rfl

/-- C8: a game record naming the unregistered id "ZZ" is still
constructed and kept in the returned game list (read_gamestxt appends it
unconditionally), its white slot is `None`, and playing it raises
`AttributeError` — the run aborts instead of dropping the game and
continuing as the claim states. -/
theorem c8_unknown_id_game_kept_then_play_raises :
    (read_games demo_players [("ZZ", "SF", 0, 0)]).length = 1 ∧
    read_games demo_players [("ZZ", "SF", 0, 0)]
      = [mkGame demo_players "ZZ" "SF" 0 0] ∧
    (mkGame demo_players "ZZ" "SF" 0 0).white = none ∧
    rgame_play_result (mkGame demo_players "ZZ" "SF" 0 0)
      = Except.error "AttributeError" :=
  ⟨rfl, rfl, rfl, rfl⟩

/-- C6: the expected score lies strictly between 0 and 1 for all finite
ratings and deviations in either mode, and in classic mode the expected
scores of the two players of a pairing sum to exactly 1. -/
theorem c6_expected_in_open_unit_interval_classic_sum_one
    (glicko : Bool) (se oe sdev odev : ℝ) :
    (0 < expected glicko se oe odev ∧ expected glicko se oe odev < 1) ∧
    expected false se oe odev + expected false oe se sdev = 1 :=
  ⟨⟨expected_pos glicko se oe odev, expected_lt_one glicko se oe odev⟩,
   expected_classic_symm se oe sdev odev⟩

lemma classic_staged_elo (dates : List ℕ) (now : ℕ) (og : OppGame)
    (a ra k : ℝ) :
    (calculate_period false dates now [og]
      { elo := [a], rdev := [ra], games := [now], buffer := (0, 0),
        kFactor := k }).buffer.1
      = a + rComp false a og * k := by
  simp [calculate_period]

/-- C5: a decisive classic game between players with equal K-factors is
zero-sum. In chess_elo.py, the winner's gain and the loser's loss have
equal magnitude and the two rating changes sum to 0; in the period
engine of ranking.py (classic branch of `calculate_period`), the two
staged rating changes of a single-game period likewise sum to 0. -/
theorem c5_classic_decisive_zero_sum (g : EGame)
    (dates : List ℕ) (now : ℕ) (a b ra rb sv k : ℝ)
    (hplayed : g.played = false)
    (hdec : g.winnerId = 0 ∨ g.winnerId = 1)
    (hk : g.whiteK = g.blackK) :
    (((eplay g).whiteElo - g.whiteElo) + ((eplay g).blackElo - g.blackElo) = 0 ∧
     |(eplay g).whiteElo - g.whiteElo| = |(eplay g).blackElo - g.blackElo|) ∧
    ((calculate_period false dates now [⟨b, rb, sv⟩]
        { elo := [a], rdev := [ra], games := [now], buffer := (0, 0),
          kFactor := k }).buffer.1 - a)
      + ((calculate_period false dates now [⟨a, ra, 1 - sv⟩]
          { elo := [b], rdev := [rb], games := [now], buffer := (0, 0),
            kFactor := k }).buffer.1 - b) = 0 := by
  constructor
  · rcases hdec with h0 | h1
    · rw [show eplay g = { g with
          whiteElo := g.whiteElo + g.whiteK * (1 - expectedE g.whiteElo g.blackElo),
          blackElo := g.blackElo + g.blackK * (-(1 - expectedE g.whiteElo g.blackElo)),
          played := true } from by simp [eplay, hplayed, h0]]
      constructor
      · simp only
        rw [hk]
        ring
      · simp only
        rw [hk]
        rw [show g.blackElo + g.blackK * (-(1 - expectedE g.whiteElo g.blackElo)) - g.blackElo
              = -(g.blackK * (1 - expectedE g.whiteElo g.blackElo)) from by ring,
            abs_neg]
        ring_nf
    · rw [show eplay g = { g with
          blackElo := g.blackElo + g.blackK * (1 - expectedE g.blackElo g.whiteElo),
          whiteElo := g.whiteElo + g.whiteK * (-(1 - expectedE g.blackElo g.whiteElo)),
          played := true } from by
            unfold eplay
            rw [if_neg (by simp [hplayed])]
            split_ifs with hz
            · exact absurd h1 (by rw [hz]; norm_num)
            · rfl]
      constructor
      · simp only
        rw [hk]
        ring
      · simp only
        rw [hk]
        rw [show g.whiteElo + g.blackK * (-(1 - expectedE g.blackElo g.whiteElo)) - g.whiteElo
              = -(g.blackK * (1 - expectedE g.blackElo g.whiteElo)) from by ring,
            abs_neg]
        ring_nf
  · rw [classic_staged_elo, classic_staged_elo]
    have hsym := expected_classic_symm a b ra rb
    unfold rComp
    rw [g_weight_classic, g_weight_classic]
    simp only
    have h2 : expected false b a ra = 1 - expected false a b rb := by linarith
    rw [h2]
    ring

lemma GLICKO_C_sq : GLICKO_C ^ 2 = 11890 := by
  unfold GLICKO_C STARTING_RD APPROX_RD UNCERT_TIME
  rw [Real.sq_sqrt (by norm_num)]
  norm_num

lemma GLICKO_C_nonneg : 0 ≤ GLICKO_C := Real.sqrt_nonneg _

lemma GLICKO_C_lt_110 : GLICKO_C < 110 := by
  unfold GLICKO_C STARTING_RD APPROX_RD UNCERT_TIME
  rw [Real.sqrt_lt' (by norm_num)]
  norm_num

/-- An idle player's state just before period date 10 of the periods
0, 1, ..., 10: a single game on date 0, latest deviation 60 (the
steady-state deviation of a frequent player), latest rating 1500. -/
def demo_idle_state : PState :=
  { elo := [1500], rdev := [60], games := [0], buffer := (0, 0), kFactor := 20 }

lemma demo_idle_periods : periodsFn (List.range 11) 10 [0] = 10 := by decide

lemma demo_idle_buffer :
    (calculate_period true (List.range 11) 10 [] demo_idle_state).buffer.2
      = idle_rdev 60 10 := by
  unfold calculate_period demo_idle_state
  rw [if_neg (by simp), if_pos (by simp)]
  simp [demo_idle_periods]

/-- Modelled from the spec: the idle-period deviation growth formula of
§4.1 case 2, `dev' = min(sqrt(dev² + c²·p), starting_deviation)` with
`c = GLICKO_C`. It exists only to compare the spec's formula with the
source's `idle_rdev`, which multiplies by `GLICKO_C` unsquared. -/
noncomputable def spec_idle_rdev (dev p : ℝ) : ℝ :=
  min (Real.sqrt (dev ^ 2 + GLICKO_C ^ 2 * p)) STARTING_RD

/-- C2: the source's idle-deviation update uses `GLICKO_C` unsquared
(ranking.py line 216), so a player of deviation 60 idle for 10 periods
is staged a deviation below 70, while the claimed formula
`min(sqrt(dev² + c²·p), 350)` gives exactly 350 there (as the source's
own comment on UNCERT_TIME — "time periods after which RD ->
STARTING_RD" — requires). -/
theorem c2_idle_rdev_uses_c_unsquared :
    (calculate_period true (List.range 11) 10 [] demo_idle_state).buffer.2 < 70 ∧
    spec_idle_rdev 60 10 = 350 ∧
    (calculate_period true (List.range 11) 10 [] demo_idle_state).buffer.2
      = idle_rdev 60 10 := by
  refine ⟨?_, ?_, demo_idle_buffer⟩
  · rw [demo_idle_buffer]
    unfold idle_rdev STARTING_RD
    have h : Real.sqrt ((60 : ℝ) ^ 2 + GLICKO_C * 10) < 70 := by
      rw [Real.sqrt_lt' (by norm_num)]
      nlinarith [GLICKO_C_lt_110, GLICKO_C_nonneg]
    calc min (Real.sqrt ((60 : ℝ) ^ 2 + GLICKO_C * 10)) 350
        ≤ Real.sqrt ((60 : ℝ) ^ 2 + GLICKO_C * 10) := min_le_left _ _
      _ < 70 := h
  · unfold spec_idle_rdev STARTING_RD
    rw [GLICKO_C_sq]
    rw [show (60 : ℝ) ^ 2 + 11890 * 10 = 350 ^ 2 by norm_num]
    rw [Real.sqrt_sq (by norm_num)]
    exact min_self 350

/-- C3: with the non-negative penalty configuration `penalty_rate = 2`
(growth rate and cutoff as in the source), a player of rating 1600 idle
for one period is staged a decay of 950 rating points — far above
`MAX_PENALTY = 20`, a constant the source defines but never applies —
and its staged rating 650 falls below `PENALTY_CUTOFF = 1125`, refuting
both bounds of the claim. -/
theorem c3_idle_decay_exceeds_cap_and_cutoff :
    1600 - idle_elo 1600 2 EXP_PENALTY PENALTY_CUTOFF 1 > MAX_PENALTY ∧
    idle_elo 1600 2 EXP_PENALTY PENALTY_CUTOFF 1 < PENALTY_CUTOFF := by
  unfold idle_elo EXP_PENALTY PENALTY_CUTOFF STARTING_ELO MAX_PENALTY
  rw [show (0.2 : ℝ) * ((1 : ℝ) - 1) = 0 by norm_num, Real.exp_zero]
  rw [max_eq_left (by norm_num : (0 : ℝ) ≤ (1600 : ℝ) - 1500 * 0.75)]
  norm_num

lemma calc_branch_no_games (glicko : Bool) (dates : List ℕ) (now : ℕ)
    (today : List OppGame) (s : PState) (h : s.games = []) :
    calculate_period glicko dates now today s
      = { s with buffer :=
            (s.elo.headD 0 - max (s.elo.headD 0 - PENALTY_CUTOFF) 0 * PENALTY,
             s.rdev.headD 0) } := by
  unfold calculate_period
  rw [if_pos h]

lemma calc_branch_idle (glicko : Bool) (dates : List ℕ) (now : ℕ)
    (today : List OppGame) (s : PState) (h1 : s.games ≠ [])
    (h2 : s.games.getLastD 0 ≠ now) :
    calculate_period glicko dates now today s
      = { s with buffer :=
            (idle_elo (s.elo.headD 0) PENALTY EXP_PENALTY PENALTY_CUTOFF
               (periodsFn dates now s.games : ℝ),
             if glicko then
               idle_rdev (s.rdev.headD 0) (periodsFn dates now s.games : ℝ)
             else 0) } := by
  unfold calculate_period
  rw [if_neg h1, if_pos h2]

lemma calc_branch_played (dates : List ℕ) (now : ℕ)
    (today : List OppGame) (s : PState) (h1 : s.games ≠ [])
    (h2 : s.games.getLastD 0 = now) :
    calculate_period true dates now today s
      = { s with buffer :=
            (s.elo.headD 0
               + GLICKO_Q
                 * played_rdev (s.rdev.headD 0)
                     ((today.map (dComp true (s.elo.headD 0))).sum) ^ 2
                 * (today.map (rComp true (s.elo.headD 0))).sum
               + BONUS,
             played_rdev (s.rdev.headD 0)
               ((today.map (dComp true (s.elo.headD 0))).sum)) } := by
  unfold calculate_period
  rw [if_neg h1, if_neg (not_not_intro h2)]
  rfl

lemma dComp_nonneg (glicko : Bool) (selfElo : ℝ) (g : OppGame) :
    0 ≤ dComp glicko selfElo g := by
  unfold dComp
  have h1 := expected_pos glicko selfElo g.oppElo g.oppRdev
  have h2 := expected_lt_one glicko selfElo g.oppElo g.oppRdev
  have h3 := sq_nonneg (g_weight glicko g.oppRdev)
  have h4 : (0 : ℝ) ≤ 1 - expected glicko selfElo g.oppElo g.oppRdev := by
    linarith
  exact mul_nonneg (mul_nonneg h3 h1.le) h4

lemma sumD_nonneg (glicko : Bool) (selfElo : ℝ) (today : List OppGame) :
    0 ≤ (today.map (dComp glicko selfElo)).sum := by
  refine List.sum_nonneg ?_
  intro x hx
  obtain ⟨g, _, rfl⟩ := List.mem_map.1 hx
  exact dComp_nonneg glicko selfElo g

lemma played_rdev_le (dev S : ℝ) (hdev : MIN_RD ≤ dev) (hS : 0 ≤ S) :
    played_rdev dev S ≤ dev := by
  unfold played_rdev
  have hdevpos : (0 : ℝ) < dev := lt_of_lt_of_le (by norm_num [MIN_RD]) hdev
  have hQS : 0 ≤ 1 / (GLICKO_Q ^ 2 * S)⁻¹ := by
    rw [one_div, inv_inv]
    exact mul_nonneg (sq_nonneg _) hS
  have h2 : 1 / dev ≤ Real.sqrt (1 / dev ^ 2 + 1 / (GLICKO_Q ^ 2 * S)⁻¹) := by
    apply Real.le_sqrt_of_sq_le
    rw [div_pow, one_pow]
    linarith
  have h3 : (Real.sqrt (1 / dev ^ 2 + 1 / (GLICKO_Q ^ 2 * S)⁻¹))⁻¹ ≤ dev := by
    have h4 := inv_anti₀ (by positivity : (0 : ℝ) < 1 / dev) h2
    calc (Real.sqrt (1 / dev ^ 2 + 1 / (GLICKO_Q ^ 2 * S)⁻¹))⁻¹
        ≤ (1 / dev)⁻¹ := h4
      _ = dev := by rw [one_div, inv_inv]
  exact max_le h3 hdev

lemma idle_rdev_bounds (dev p : ℝ) (h0 : 0 ≤ dev) (h350 : dev ≤ STARTING_RD)
    (hp : 0 ≤ p) :
    dev ≤ idle_rdev dev p ∧ idle_rdev dev p ≤ STARTING_RD := by
  unfold idle_rdev
  refine ⟨le_min ?_ h350, min_le_right _ _⟩
  calc dev = Real.sqrt (dev ^ 2) := (Real.sqrt_sq h0).symm
    _ ≤ _ := Real.sqrt_le_sqrt
        (by nlinarith [mul_nonneg GLICKO_C_nonneg hp])

lemma calc_rdev_frame (glicko : Bool) (dates : List ℕ) (now : ℕ)
    (today : List OppGame) (s : PState) :
    (calculate_period glicko dates now today s).rdev = s.rdev := by
  unfold calculate_period
  split_ifs <;> rfl

lemma headD_mem {l : List ℝ} (h : l ≠ []) : l.headD 0 ∈ l := by
  cases l with
  | nil => exact absurd rfl h
  | cons a t => simp

/-- C4: across one Glicko period, starting from a valid committed
deviation (between the floor 50 and the starting deviation 350), the
staged deviation does not increase when the player has a game dated in
the period (the last registered game is dated `now`), and does not
decrease — and stays at most 350 — when the player has played before but
has no game in the period. -/
theorem c4_rdev_monotone_per_period (dates : List ℕ) (now : ℕ)
    (today : List OppGame) (s : PState)
    (h50 : MIN_RD ≤ s.rdev.headD 0) (h350 : s.rdev.headD 0 ≤ STARTING_RD)
    (hp : 0 ≤ periodsFn dates now s.games) :
    (s.games ≠ [] → s.games.getLastD 0 = now →
       (calculate_period true dates now today s).buffer.2 ≤ s.rdev.headD 0) ∧
    (s.games ≠ [] → s.games.getLastD 0 ≠ now →
       s.rdev.headD 0 ≤ (calculate_period true dates now today s).buffer.2 ∧
       (calculate_period true dates now today s).buffer.2 ≤ STARTING_RD) := by
  constructor
  · intro h1 h2
    rw [calc_branch_played dates now today s h1 h2]
    exact played_rdev_le _ _ h50 (sumD_nonneg _ _ _)
  · intro h1 h2
    rw [calc_branch_idle true dates now today s h1 h2]
    have hpR : (0 : ℝ) ≤ (periodsFn dates now s.games : ℝ) := by
      exact_mod_cast hp
    have h0 : (0 : ℝ) ≤ s.rdev.headD 0 :=
      le_trans (by norm_num [MIN_RD]) h50
    simpa using idle_rdev_bounds (s.rdev.headD 0) _ h0 h350 hpR

/-- C4 witness: the idle case at the concrete state `demo_idle_state`
(deviation 60, one game at date 0) staged at period date 10. -/
theorem c4_rdev_monotone_per_period_witness :
    (demo_idle_state.games ≠ [] → demo_idle_state.games.getLastD 0 = 10 →
       (calculate_period true (List.range 11) 10 [] demo_idle_state).buffer.2
         ≤ demo_idle_state.rdev.headD 0) ∧
    (demo_idle_state.games ≠ [] → demo_idle_state.games.getLastD 0 ≠ 10 →
       demo_idle_state.rdev.headD 0
         ≤ (calculate_period true (List.range 11) 10 [] demo_idle_state).buffer.2 ∧
       (calculate_period true (List.range 11) 10 [] demo_idle_state).buffer.2
         ≤ STARTING_RD) :=
  c4_rdev_monotone_per_period (List.range 11) 10 [] demo_idle_state
    (by norm_num [demo_idle_state, MIN_RD])
    (by norm_num [demo_idle_state, STARTING_RD])
    (by rw [show demo_idle_state.games = [0] from rfl]; decide)

lemma staged_rdev_in_bounds (dates : List ℕ) (now : ℕ) (today : List OppGame)
    (s : PState) (hne : s.rdev ≠ [])
    (hinv : ∀ d ∈ s.rdev, MIN_RD ≤ d ∧ d ≤ STARTING_RD)
    (hp : 0 ≤ periodsFn dates now s.games) :
    MIN_RD ≤ (calculate_period true dates now today s).buffer.2 ∧
    (calculate_period true dates now today s).buffer.2 ≤ STARTING_RD := by
  obtain ⟨h50, h350⟩ := hinv _ (headD_mem hne)
  by_cases h1 : s.games = []
  · rw [calc_branch_no_games true dates now today s h1]
    exact ⟨h50, h350⟩
  · by_cases h2 : s.games.getLastD 0 = now
    · rw [calc_branch_played dates now today s h1 h2]
      exact ⟨le_max_right _ _,
        le_trans (played_rdev_le _ _ h50 (sumD_nonneg _ _ _)) h350⟩
    · rw [calc_branch_idle true dates now today s h1 h2]
      have hpR : (0 : ℝ) ≤ (periodsFn dates now s.games : ℝ) := by
        exact_mod_cast hp
      have h0 : (0 : ℝ) ≤ s.rdev.headD 0 :=
        le_trans (by norm_num [MIN_RD]) h50
      have hb := idle_rdev_bounds (s.rdev.headD 0) _ h0 h350 hpR
      exact ⟨le_trans h50 (by simpa using hb.1), by simpa using hb.2⟩

/-- C9: in Glicko mode with the source constants, every entry of the
deviation history lies in [50, 350]: the initial history satisfies the
bounds, and one staged-and-committed period (staging at a date not
earlier than every registered game, so the idle-period count is
non-negative) preserves them for every entry, new and old. -/
theorem c9_rdev_history_in_floor_start_interval (dates : List ℕ) (now : ℕ)
    (today : List OppGame) (s : PState) (hne : s.rdev ≠ [])
    (hinv : ∀ d ∈ s.rdev, MIN_RD ≤ d ∧ d ≤ STARTING_RD)
    (hp : 0 ≤ periodsFn dates now s.games) :
    (∀ d ∈ player_init.rdev, MIN_RD ≤ d ∧ d ≤ STARTING_RD) ∧
    ∀ d ∈ (apply_period (calculate_period true dates now today s)).rdev,
      MIN_RD ≤ d ∧ d ≤ STARTING_RD := by
  constructor
  · intro d hd
    rw [show player_init.rdev = [STARTING_RD] from rfl] at hd
    rw [List.mem_singleton.1 hd]
    norm_num [MIN_RD, STARTING_RD]
  · intro d hd
    rw [show (apply_period (calculate_period true dates now today s)).rdev
          = (calculate_period true dates now today s).buffer.2
            :: (calculate_period true dates now today s).rdev from rfl] at hd
    rcases List.mem_cons.1 hd with h | h
    · rw [h]
      exact staged_rdev_in_bounds dates now today s hne hinv hp
    · refine hinv d ?_
      rwa [calc_rdev_frame true dates now today s] at h

/-- C9 witness: one staged-and-committed period at the concrete state
`demo_idle_state`. -/
theorem c9_rdev_history_in_floor_start_interval_witness :
    (∀ d ∈ player_init.rdev, MIN_RD ≤ d ∧ d ≤ STARTING_RD) ∧
    ∀ d ∈ (apply_period
        (calculate_period true (List.range 11) 10 [] demo_idle_state)).rdev,
      MIN_RD ≤ d ∧ d ≤ STARTING_RD :=
  c9_rdev_history_in_floor_start_interval (List.range 11) 10 [] demo_idle_state
    (by simp [demo_idle_state])
    (by
      intro d hd
      rw [show demo_idle_state.rdev = [60] from rfl] at hd
      rw [List.mem_singleton.1 hd]
      norm_num [MIN_RD, STARTING_RD])
    (by rw [show demo_idle_state.games = [0] from rfl]; decide)

/-- C5 witness: the decisive game of spec scenario A (two fresh players
at 1500, K = 20, white wins) together with the single-game classic
period at ratings 1500 and win value 1. -/
theorem c5_classic_decisive_zero_sum_witness :
    (((eplay demo_egame).whiteElo - demo_egame.whiteElo)
        + ((eplay demo_egame).blackElo - demo_egame.blackElo) = 0 ∧
     |(eplay demo_egame).whiteElo - demo_egame.whiteElo|
        = |(eplay demo_egame).blackElo - demo_egame.blackElo|) ∧
    ((calculate_period false [0] 0 [⟨1500, 350, 1⟩]
        { elo := [1500], rdev := [350], games := [0], buffer := (0, 0),
          kFactor := 20 }).buffer.1 - 1500)
      + ((calculate_period false [0] 0 [⟨1500, 350, 1 - 1⟩]
          { elo := [1500], rdev := [350], games := [0], buffer := (0, 0),
            kFactor := 20 }).buffer.1 - 1500) = 0 :=
  c5_classic_decisive_zero_sum demo_egame [0] 0 1500 1500 350 350 1 20
    rfl (Or.inl rfl) rfl

end ChessRanking
